import Mathlib

/-!
Shallow embedding of the GPG key-expiry notification job, in its two
variants: `gpg-keys-lambda.py` (single-key notifications, exact-or-soon
policy) and `lambda-testing.py` (consolidated per-recipient
notifications, 31-day window policy).

Python strings are modelled as Lean `String` values (lists of
characters); the Python string methods used by the code (`strip`,
`upper`, `split`) are modelled character by character.  Python `dict`
rows produced by `csv.DictReader` are modelled as association lists
with distinct keys.  The two external collaborators (object storage
and the mail transport) are passed in as explicit parameters: the
fetch as an `Except` value, the transport as a function saying whether
a given attempt succeeds.
-/

/-- Python `str.strip` on a list of characters: drop whitespace from
both ends. -/
def stripChars (l : List Char) : List Char :=
  ((l.dropWhile Char.isWhitespace).reverse.dropWhile Char.isWhitespace).reverse

/-- Python `str.strip`. -/
def pyStrip (s : String) : String :=
  ⟨stripChars s.data⟩

/-- Python `str.upper` (the manifests hold ASCII data). -/
def pyUpper (s : String) : String :=
  ⟨s.data.map Char.toUpper⟩

/-- Python `str.split(sep)` with a one-character separator, on lists of
characters.  `split` on an empty string yields `[""]`, and separators
at the ends yield empty segments, as in Python. -/
def splitOnChar (sep : Char) : List Char → List (List Char)
  | [] => [[]]
  | c :: cs =>
    if c = sep then [] :: splitOnChar sep cs
    else
      match splitOnChar sep cs with
      | [] => [[c]]
      | p :: ps => (c :: p) :: ps

/-- Python `str.split(sep)`. -/
def pySplit (sep : Char) (s : String) : List String :=
  (splitOnChar sep s.data).map (fun l => ⟨l⟩)

/-- Numeric value of a digit string. -/
def digitsToNat (l : List Char) : Nat :=
  l.foldl (fun n c => n * 10 + (c.toNat - 48)) 0

/-- One row of the manifest, as produced by `csv.DictReader`: a mapping
from header name to cell text.  Header names of a CSV are distinct, so
an association list with first-match lookup models the `dict`. -/
structure Row where
  entries : List (String × String)
deriving DecidableEq

/-- Python `row.get(k)`. -/
def rowGet (row : Row) (k : String) : Option String :=
  (row.entries.find? (fun p => p.1 == k)).map (fun p => p.2)

/-- A chain `row.get(a) or row.get(b) or ...`: the first present,
truthy value.  `None` and the empty string are falsy in Python, so a
missing key and an empty cell behave alike. -/
def firstTruthy : List (Option String) → Option String
  | [] => none
  | none :: rest => firstTruthy rest
  | some s :: rest => if s = "" then firstTruthy rest else some s

/-- Gregorian calendar date, as validated by the `datetime` constructor. -/
structure KeyDate where
  year : Nat
  month : Nat
  day : Nat
deriving DecidableEq

def isLeapYear (y : Nat) : Bool :=
  (y % 4 == 0) && (y % 100 != 0 || y % 400 == 0)

def daysInMonth (y m : Nat) : Nat :=
  if m = 2 then (if isLeapYear y then 29 else 28)
  else if m = 4 ∨ m = 6 ∨ m = 9 ∨ m = 11 then 30
  else 31

/-- Python `datetime.strptime(s, "%d-%m-%Y")`, date part.  The strptime
patterns accept one or two digits for `%d` and `%m`, exactly four
digits for `%Y`, the whole string must be consumed, and the `datetime`
constructor validates the day against the month length and requires
`year >= 1`.  Returns `none` where the Python call raises
`ValueError`. -/
def parseDDMMYYYY (s : String) : Option KeyDate :=
  match splitOnChar '-' s.data with
  | [ds, ms, ys] =>
    if ds.all Char.isDigit && decide (1 ≤ ds.length) && decide (ds.length ≤ 2) &&
       ms.all Char.isDigit && decide (1 ≤ ms.length) && decide (ms.length ≤ 2) &&
       ys.all Char.isDigit && decide (ys.length = 4) then
      let d := digitsToNat ds
      let m := digitsToNat ms
      let y := digitsToNat ys
      if decide (1 ≤ d) && decide (1 ≤ m) && decide (m ≤ 12) && decide (1 ≤ y) &&
         decide (d ≤ daysInMonth y m) then
        some ⟨y, m, d⟩
      else none
    else none
  | _ => none

/-- Day number of a proleptic Gregorian date (days since 0000-03-01),
the arithmetic behind Python date and datetime subtraction.  Only
differences of this value are ever used. -/
def KeyDate.toOrdinal (dt : KeyDate) : Int :=
  let y : Int := if dt.month ≤ 2 then (dt.year : Int) - 1 else (dt.year : Int)
  let era : Int := Int.fdiv y 400
  let yoe : Int := y - era * 400
  let mp : Int := Int.emod ((dt.month : Int) + 9) 12
  let doy : Int := Int.fdiv (153 * mp + 2) 5 + (dt.day : Int) - 1
  let doe : Int := yoe * 365 + Int.fdiv yoe 4 - Int.fdiv yoe 100 + doy
  era * 146097 + doe

/-- Microseconds per day; `timedelta` normalizes to this resolution. -/
def usecPerDay : Int := 86400000000

/-- `(expiry_date - today).days` in the single-key variant.  There
`today = datetime.datetime.now()` keeps the time of day (`nowUsec`
microseconds past midnight) while the parsed expiry is at midnight, and
`timedelta.days` is the floor of the difference in whole days. -/
def daysUntilSingle (expiry : KeyDate) (todayOrd nowUsec : Int) : Int :=
  Int.fdiv ((expiry.toOrdinal - todayOrd) * usecPerDay - nowUsec) usecPerDay

/-- `(expiry_date - today).days` in the consolidated variant: both
sides are plain dates, so this is the whole-day date difference. -/
def daysUntilCons (expiry : KeyDate) (todayOrd : Int) : Int :=
  expiry.toOrdinal - todayOrd

/-- Line 61 of the single-key variant:
`days_until_expiry == 14 or (1 <= days_until_expiry <= 3)`. -/
def exactOrSoonPolicy (d : Int) : Bool :=
  decide (d = 14 ∨ (1 ≤ d ∧ d ≤ 3))

/-- Line 53 of the consolidated variant: `0 <= days_until_expiry <= 30`. -/
def windowPolicy (d : Int) : Bool :=
  decide (0 ≤ d ∧ d ≤ 30)

/-! ### Single-key variant (`gpg-keys-lambda.py`) -/

/-- Run statistics of the single-key variant. -/
structure Stats where
  processed : Nat
  notified : Nat
  errors : Nat
deriving DecidableEq

/-- The retry loop of `send_formatted_email`: up to `remaining`
attempts, where `attemptOk` says whether a given attempt of the
transport succeeds.  A success returns at once; the failure of the last
attempt is re-raised.  Result: (number of send attempts made, success);
`false` means the exception propagates to the caller. -/
def sendAttemptsSingle (attemptOk : Nat → Bool) : Nat → Nat → Nat × Bool
  | _, 0 => (0, false)
  | attempt, remaining + 1 =>
    if attemptOk attempt then (1, true)
    else if remaining = 0 then (1, false)
    else
      let p := sendAttemptsSingle attemptOk (attempt + 1) remaining
      (p.1 + 1, p.2)

/-- `send_formatted_email` with `max_retries = 3`; the transport is a
parameter, applied to the recipient list and the attempt number. -/
def sendFormattedEmail (transport : List String → Nat → Bool)
    (recipients : List String) : Nat × Bool :=
  sendAttemptsSingle (transport recipients) 0 3

/-- Line 65 of the single-key variant:
`[email.strip() for email in email_column.split(',')]`.
Empty segments are kept. -/
def recipientsSingle (emailColumn : String) : List String :=
  (pySplit ',' emailColumn).map pyStrip

/-- Line 47: `row.get('GPG_Key_Expiry') or row.get('GPG_key_expiry') or
row.get('expiry_date')`. -/
def expiryStrSingle (row : Row) : Option String :=
  firstTruthy [rowGet row "GPG_Key_Expiry", rowGet row "GPG_key_expiry",
    rowGet row "expiry_date"]

/-- Line 64: `row.get('PIC_Email') or row.get('PIC_email', '')`. -/
def emailColumnSingle (row : Row) : String :=
  (firstTruthy [rowGet row "PIC_Email", rowGet row "PIC_email"]).getD ""

/-- One iteration of the row loop of `lambda_handler` in the single-key
variant.  `processed` increments for every row; a missing expiry skips
the row; a `ValueError` from date parsing or an exhausted send is
caught by the inner handler and counts one error; a successful send
counts one notification. -/
def processRowSingle (todayOrd nowUsec : Int)
    (transport : List String → Nat → Bool) (st : Stats) (row : Row) : Stats :=
  let st := { st with processed := st.processed + 1 }
  match expiryStrSingle row with
  | none => st
  | some s =>
    match parseDDMMYYYY s with
    | none => { st with errors := st.errors + 1 }
    | some expiry =>
      if exactOrSoonPolicy (daysUntilSingle expiry todayOrd nowUsec) then
        if (sendFormattedEmail transport (recipientsSingle (emailColumnSingle row))).2 then
          { st with notified := st.notified + 1 }
        else
          { st with errors := st.errors + 1 }
      else st

/-- The payload returned at the invocation boundary. -/
structure Response where
  statusCode : Nat
  body : String
deriving DecidableEq

def jsonEscapeChar (c : Char) : List Char :=
  if c = '\\' then ['\\', '\\'] else if c = '\"' then ['\\', '\"'] else [c]

/-- `json.dumps` of a string payload (the status messages hold no
control characters). -/
def jsonDumps (s : String) : String :=
  ⟨'\"' :: ((s.data.map jsonEscapeChar).flatten ++ ['\"'])⟩

/-- `lambda_handler` of the single-key variant.  The storage fetch is a
parameter; everything after it sits inside the outer `try`, whose
handler turns any fetched-manifest failure into a 500 response instead
of raising past the job boundary. -/
def lambdaHandlerSingle (fetch : Except String (List Row)) (todayOrd nowUsec : Int)
    (transport : List String → Nat → Bool) : Response :=
  match fetch with
  | Except.error e => ⟨500, jsonDumps ("Error: " ++ e)⟩
  | Except.ok rows =>
    let st := rows.foldl (processRowSingle todayOrd nowUsec transport) ⟨0, 0, 0⟩
    ⟨200, jsonDumps ("Processed " ++ toString st.processed ++ " keys, sent " ++
      toString st.notified ++ " notifications")⟩

/-! ### Consolidated variant (`lambda-testing.py`) -/

/-- One aggregated key entry, as appended to `recipient_keys`. -/
structure KeyEntry where
  feed_name : String
  key_name : String
  expiry_date : String
  days_until_expiry : Int
deriving DecidableEq

/-- `recipient_keys`: insertion keeps the first-seen order of
recipients, appending at the end of a bundle, as a Python dict with
`setdefault(recipient, []).append(entry)` does. -/
abbrev Bundles := List (String × List KeyEntry)

def addToBundle (m : Bundles) (r : String) (e : KeyEntry) : Bundles :=
  match m with
  | [] => [(r, [e])]
  | (k, v) :: rest =>
    if k = r then (k, v ++ [e]) :: rest else (k, v) :: addToBundle rest r e

def bundleGet (m : Bundles) (r : String) : Option (List KeyEntry) :=
  (m.find? (fun p => p.1 == r)).map (fun p => p.2)

/-- Line 35: `row = {k.strip(): v for k, v in row.items()}`. -/
def normalizeRow (row : Row) : Row :=
  ⟨row.entries.map (fun p => (pyStrip p.1, p.2))⟩

/-- Lines 38-42: `row.get('GPG_Key_Expiry') or row.get('gpg_key_expiry')
or row.get('expiry_date')` — note the all-lowercase second alias. -/
def expiryStrCons (nr : Row) : Option String :=
  firstTruthy [rowGet nr "GPG_Key_Expiry", rowGet nr "gpg_key_expiry",
    rowGet nr "expiry_date"]

/-- Line 44: `expiry_date_str.strip().upper() == 'N/A'`. -/
def isNA (s : String) : Bool :=
  pyUpper (pyStrip s) == "N/A"

/-- Line 54: `row.get('PIC_Email') or row.get('PIC_email', '')`. -/
def emailColumnCons (nr : Row) : String :=
  (firstTruthy [rowGet nr "PIC_Email", rowGet nr "PIC_email"]).getD ""

/-- The entry appended for one notifiable row (lines 60-65). -/
def mkEntry (nr : Row) (expiryStr : String) (days : Int) : KeyEntry where
  feed_name := (firstTruthy [rowGet nr "Feed_Name", rowGet nr "feed_name"]).getD "unknown"
  key_name := (firstTruthy [rowGet nr "GPG_Private_Key", rowGet nr "GPG_private_key"]).getD "unknown"
  expiry_date := expiryStr
  days_until_expiry := days

/-- The recipient fan-out loop (lines 54-65): strip the whole field,
skip it when empty, split on commas, strip each segment, skip empty
segments, append the entry to the bundle of each remaining recipient. -/
def addRecipients (m : Bundles) (nr : Row) (entry : KeyEntry) : Bundles :=
  let email := pyStrip (emailColumnCons nr)
  if email = "" then m
  else
    (pySplit ',' email).foldl
      (fun m seg =>
        let r := pyStrip seg
        if r = "" then m else addToBundle m r entry) m

/-- One iteration of the row loop of the consolidated `lambda_handler`.
State: `(processed, recipient_keys)`.  A missing or `N/A` expiry skips
the row before `processed += 1`; a `ValueError` is caught by the inner
handler, which only logs, so the state is unchanged. -/
def processRowCons (todayOrd : Int) (st : Nat × Bundles) (row : Row) : Nat × Bundles :=
  let nr := normalizeRow row
  match expiryStrCons nr with
  | none => st
  | some s =>
    if isNA s then st
    else
      match parseDDMMYYYY s with
      | none => st
      | some expiry =>
        let days := daysUntilCons expiry todayOrd
        let m :=
          if windowPolicy days then addRecipients st.2 nr (mkEntry nr s days)
          else st.2
        (st.1 + 1, m)

/-- Python `enumerate(key_data, start=1)`. -/
def enumFrom (i : Nat) : List KeyEntry → List (Nat × KeyEntry)
  | [] => []
  | k :: ks => (i, k) :: enumFrom (i + 1) ks

/-- One `<tr>` block of the consolidated HTML table body (lines 95-103). -/
def tableRowHtml (index : Nat) (k : KeyEntry) : String :=
  "\n        <tr>\n            <td>" ++ toString index ++
  "</td>\n            <td>" ++ k.feed_name ++
  "</td>\n            <td>" ++ k.key_name ++
  "</td>\n            <td>" ++ k.expiry_date ++
  "</td>\n            <td>" ++ toString k.days_until_expiry ++
  "</td>\n        </tr>\n        "

/-- `table_rows_html`, accumulated with `+=` over `enumerate(key_data, 1)`. -/
def tableRowsHtml (keys : List KeyEntry) : String :=
  (enumFrom 1 keys).foldl (fun acc p => acc ++ tableRowHtml p.1 p.2) ""

/-- One line of the plain-text body (line 145). -/
def textLine (index : Nat) (k : KeyEntry) : String :=
  toString index ++ ". " ++ k.feed_name ++ " | " ++ k.key_name ++ " | " ++
  k.expiry_date ++ " | " ++ toString k.days_until_expiry ++ " days\n"

/-- `text_body` up to the fixed footer (lines 143-145). -/
def textLinesBody (keys : List KeyEntry) : String :=
  (enumFrom 1 keys).foldl (fun acc p => acc ++ textLine p.1 p.2)
    "GPG KEY EXPIRATION ALERT - ACTION REQUIRED\n\n"

/-- The retry loop of `send_consolidated_email`: all `remaining`
attempts are tried; the first success returns 1, and after the loop the
function returns 0 (the failure is not re-raised).  Result: (number of
send attempts made, notifications sent). -/
def sendAttemptsCons (attemptOk : Nat → Bool) : Nat → Nat → Nat × Nat
  | _, 0 => (0, 0)
  | attempt, remaining + 1 =>
    if attemptOk attempt then (1, 1)
    else
      let p := sendAttemptsCons attemptOk (attempt + 1) remaining
      (p.1 + 1, p.2)

/-- `send_consolidated_email` with `max_retries = 3`; the transport is
applied to the recipient and the attempt number. -/
def sendConsolidatedEmail (transport : String → Nat → Bool) (recipient : String) : Nat × Nat :=
  sendAttemptsCons (transport recipient) 0 3

/-- The notification loop (lines 74-79): one `send_consolidated_email`
per recipient, summing the returned 0-or-1 counts; a per-recipient
failure is swallowed and the loop continues with the next recipient. -/
def sendAllCons (transport : String → Nat → Bool) (m : Bundles) : Nat :=
  m.foldl (fun acc p => acc + (sendConsolidatedEmail transport p.1).2) 0

/-- Observable outcome of the consolidated `lambda_handler`: either the
summary log line data, or the `Fatal error` diagnostic of the outer
handler.  The handler itself returns `None` either way; nothing is
raised past the boundary. -/
inductive ConsOutcome where
  | summary (processed notificationsSent : Nat) (bundles : Bundles)
  | fatal (msg : String)
deriving DecidableEq

/-- `lambda_handler` of the consolidated variant. -/
def lambdaHandlerCons (fetch : Except String (List Row)) (todayOrd : Int)
    (transport : String → Nat → Bool) : ConsOutcome :=
  match fetch with
  | Except.error e => ConsOutcome.fatal ("Fatal error: " ++ e)
  | Except.ok rows =>
    let st := rows.foldl (processRowCons todayOrd) (0, [])
    ConsOutcome.summary st.1 (sendAllCons transport st.2) st.2

/-! ### Helper lemmas -/

lemma fdiv_mul_sub_bounds (n u : Int) (h0 : 0 ≤ u) (h1 : u < usecPerDay) :
    n - 1 ≤ Int.fdiv (n * usecPerDay - u) usecPerDay ∧
    Int.fdiv (n * usecPerDay - u) usecPerDay ≤ n := by
  rw [Int.fdiv_eq_ediv _ (by decide : (0:Int) ≤ usecPerDay)]
  unfold usecPerDay at *
  omega

lemma fdiv_mul_sub_pos (n u : Int) (h0 : 0 < u) (h1 : u < usecPerDay) :
    Int.fdiv (n * usecPerDay - u) usecPerDay = n - 1 := by
  rw [Int.fdiv_eq_ediv _ (by decide : (0:Int) ≤ usecPerDay)]
  unfold usecPerDay at *
  omega

lemma splitOnChar_ne_nil (sep : Char) (l : List Char) : splitOnChar sep l ≠ [] := by
  induction l with
  | nil => simp [splitOnChar]
  | cons c cs ih =>
    simp only [splitOnChar]
    split
    · simp
    · split
      · simp
      · simp

lemma mem_part_of_splitOnChar (sep : Char) (l : List Char) (x : Char) (hx : x ∈ l) :
    x = sep ∨ ∃ p ∈ splitOnChar sep l, x ∈ p := by
  induction l with
  | nil => simp at hx
  | cons c cs ih =>
    rcases List.mem_cons.mp hx with rfl | hmem
    · by_cases hc : x = sep
      · exact Or.inl hc
      · right
        simp only [splitOnChar, if_neg hc]
        rcases hsp : splitOnChar sep cs with _ | ⟨p, ps⟩
        · exact absurd hsp (splitOnChar_ne_nil sep cs)
        · exact ⟨x :: p, List.mem_cons_self _ _, List.mem_cons_self _ _⟩
    · rcases ih hmem with h | ⟨p, hp, hxp⟩
      · exact Or.inl h
      · right
        simp only [splitOnChar]
        by_cases hc : c = sep
        · rw [if_pos hc]
          exact ⟨p, List.mem_cons_of_mem _ hp, hxp⟩
        · rw [if_neg hc]
          rcases hsp : splitOnChar sep cs with _ | ⟨q, qs⟩
          · exact absurd hsp (splitOnChar_ne_nil sep cs)
          · rw [hsp] at hp
            rcases List.mem_cons.mp hp with rfl | hq
            · exact ⟨c :: p, List.mem_cons_self _ _, List.mem_cons_of_mem _ hxp⟩
            · exact ⟨p, List.mem_cons_of_mem _ hq, hxp⟩

lemma mem_of_mem_stripChars (l : List Char) (x : Char) (hx : x ∈ stripChars l) : x ∈ l := by
  unfold stripChars at hx
  rw [List.mem_reverse] at hx
  have h1 := (List.dropWhile_sublist (l := (l.dropWhile Char.isWhitespace).reverse)
    (p := Char.isWhitespace)).mem hx
  rw [List.mem_reverse] at h1
  exact (List.dropWhile_sublist (l := l) (p := Char.isWhitespace)).mem h1

lemma toUpper_eq_self_of_isDigit (c : Char) (h : c.isDigit = true) : c.toUpper = c := by
  simp only [Char.isDigit, Bool.and_eq_true, decide_eq_true_eq] at h
  unfold Char.toUpper
  rw [if_neg]
  intro hcontra
  have h2 : c.toNat ≤ 57 := by
    have := h.2
    simp only [Char.toNat]
    exact UInt32.toNat_le_of_le (by decide) this
  omega

/-- Inversion of a successful parse: the string splits into three
all-digit groups at the hyphens. -/
lemma parse_some_digits (s : String) (d : KeyDate) (h : parseDDMMYYYY s = some d) :
    ∃ ds ms ys, splitOnChar '-' s.data = [ds, ms, ys] ∧
      ds.all Char.isDigit = true ∧ ms.all Char.isDigit = true ∧ ys.all Char.isDigit = true := by
  unfold parseDDMMYYYY at h
  split at h
  · next ds ms ys heq =>
    split at h
    · next hguard =>
      simp only [Bool.and_eq_true] at hguard
      exact ⟨ds, ms, ys, heq, hguard.1.1.1.1.1.1.1, hguard.1.1.1.1.2, hguard.1.2⟩
    · exact absurd h (by simp)
  · exact absurd h (by simp)

/-- A string that strips and uppercases to the literal N/A cannot parse
as a date: it contains a slash, a parseable date only digits and
hyphens. -/
lemma parse_none_of_isNA (s : String) (h : isNA s = true) : parseDDMMYYYY s = none := by
  rcases hp : parseDDMMYYYY s with _ | d
  · rfl
  · exfalso
    obtain ⟨ds, ms, ys, hsp, hds, hms, hys⟩ := parse_some_digits s d hp
    have hna : pyUpper (pyStrip s) = "N/A" :=
      (beq_iff_eq (a := pyUpper (pyStrip s)) (b := "N/A")).mp h
    have hmap : (stripChars s.data).map Char.toUpper = "N/A".data := congrArg String.data hna
    have hmem : '/' ∈ (stripChars s.data).map Char.toUpper := by
      rw [hmap]; decide
    obtain ⟨x, hxmem, hxup⟩ := List.mem_map.mp hmem
    have hxs : x ∈ s.data := mem_of_mem_stripChars _ _ hxmem
    rcases mem_part_of_splitOnChar '-' s.data x hxs with rfl | ⟨p, hpmem, hxp⟩
    · exact absurd hxup (by decide)
    · rw [hsp] at hpmem
      have hdig : x.isDigit = true := by
        rcases List.mem_cons.mp hpmem with rfl | hrest
        · exact List.all_eq_true.mp hds x hxp
        · rcases List.mem_cons.mp hrest with rfl | hrest2
          · exact List.all_eq_true.mp hms x hxp
          · rcases List.mem_cons.mp hrest2 with rfl | hfalse
            · exact List.all_eq_true.mp hys x hxp
            · simp at hfalse
      rw [toUpper_eq_self_of_isDigit x hdig] at hxup
      subst hxup
      exact absurd hdig (by decide)

lemma processRowSingle_noExpiry (T u : Int) (tr : List String → Nat → Bool)
    (st : Stats) (row : Row) (h : expiryStrSingle row = none) :
    processRowSingle T u tr st row = { st with processed := st.processed + 1 } := by
  unfold processRowSingle
  simp only [h]

lemma processRowSingle_badParse (T u : Int) (tr : List String → Nat → Bool)
    (st : Stats) (row : Row) (s : String)
    (h1 : expiryStrSingle row = some s) (h2 : parseDDMMYYYY s = none) :
    processRowSingle T u tr st row =
      { st with processed := st.processed + 1, errors := st.errors + 1 } := by
  unfold processRowSingle
  simp only [h1, h2]

lemma processRowSingle_notNotifiable (T u : Int) (tr : List String → Nat → Bool)
    (st : Stats) (row : Row) (s : String) (d : KeyDate)
    (h1 : expiryStrSingle row = some s) (h2 : parseDDMMYYYY s = some d)
    (h3 : exactOrSoonPolicy (daysUntilSingle d T u) = false) :
    processRowSingle T u tr st row = { st with processed := st.processed + 1 } := by
  unfold processRowSingle
  simp [h1, h2, h3]

lemma processRowSingle_sendOk (T u : Int) (tr : List String → Nat → Bool)
    (st : Stats) (row : Row) (s : String) (d : KeyDate)
    (h1 : expiryStrSingle row = some s) (h2 : parseDDMMYYYY s = some d)
    (h3 : exactOrSoonPolicy (daysUntilSingle d T u) = true)
    (h4 : (sendFormattedEmail tr (recipientsSingle (emailColumnSingle row))).2 = true) :
    processRowSingle T u tr st row =
      { st with processed := st.processed + 1, notified := st.notified + 1 } := by
  unfold processRowSingle
  simp [h1, h2, h3, h4]

lemma processRowSingle_sendFail (T u : Int) (tr : List String → Nat → Bool)
    (st : Stats) (row : Row) (s : String) (d : KeyDate)
    (h1 : expiryStrSingle row = some s) (h2 : parseDDMMYYYY s = some d)
    (h3 : exactOrSoonPolicy (daysUntilSingle d T u) = true)
    (h4 : (sendFormattedEmail tr (recipientsSingle (emailColumnSingle row))).2 = false) :
    processRowSingle T u tr st row =
      { st with processed := st.processed + 1, errors := st.errors + 1 } := by
  unfold processRowSingle
  simp [h1, h2, h3, h4]

lemma processRowSingle_shape (T u : Int) (tr : List String → Nat → Bool)
    (st : Stats) (row : Row) :
    processRowSingle T u tr st row = { st with processed := st.processed + 1 } ∨
    processRowSingle T u tr st row =
      { st with processed := st.processed + 1, errors := st.errors + 1 } ∨
    processRowSingle T u tr st row =
      { st with processed := st.processed + 1, notified := st.notified + 1 } := by
  rcases h1 : expiryStrSingle row with _ | s
  · exact Or.inl (processRowSingle_noExpiry T u tr st row h1)
  · rcases h2 : parseDDMMYYYY s with _ | d
    · exact Or.inr (Or.inl (processRowSingle_badParse T u tr st row s h1 h2))
    · rcases h3 : exactOrSoonPolicy (daysUntilSingle d T u) with _ | _
      · exact Or.inl (processRowSingle_notNotifiable T u tr st row s d h1 h2 h3)
      · rcases h4 : (sendFormattedEmail tr (recipientsSingle (emailColumnSingle row))).2 with _ | _
        · exact Or.inr (Or.inl (processRowSingle_sendFail T u tr st row s d h1 h2 h3 h4))
        · exact Or.inr (Or.inr (processRowSingle_sendOk T u tr st row s d h1 h2 h3 h4))

lemma stats_foldl_invariant (T u : Int) (tr : List String → Nat → Bool)
    (rows : List Row) (st : Stats) (h : st.notified + st.errors ≤ st.processed) :
    (rows.foldl (processRowSingle T u tr) st).notified +
      (rows.foldl (processRowSingle T u tr) st).errors ≤
      (rows.foldl (processRowSingle T u tr) st).processed := by
  induction rows generalizing st with
  | nil => exact h
  | cons row rest ih =>
    simp only [List.foldl_cons]
    apply ih
    rcases processRowSingle_shape T u tr st row with heq | heq | heq <;>
      rw [heq] <;> simp <;> omega

lemma bundleGet_addToBundle_self (m : Bundles) (r : String) (e : KeyEntry) :
    bundleGet (addToBundle m r e) r = some ((bundleGet m r).getD [] ++ [e]) := by
  induction m with
  | nil => simp [bundleGet, addToBundle]
  | cons kv rest ih =>
    obtain ⟨k, v⟩ := kv
    by_cases hk : k = r
    · subst hk
      simp [bundleGet, addToBundle, List.find?]
    · simp only [addToBundle, if_neg hk]
      simp only [bundleGet, List.find?]
      have hbeq : (k == r) = false := by
        simp [hk]
      simp only [hbeq]
      exact ih

lemma bundleGet_addToBundle_ne (m : Bundles) (r rr : String) (e : KeyEntry)
    (h : rr ≠ r) : bundleGet (addToBundle m rr e) r = bundleGet m r := by
  induction m with
  | nil =>
    have hbeq : (rr == r) = false := by simp [h]
    simp [bundleGet, addToBundle, List.find?, hbeq]
  | cons kv rest ih =>
    obtain ⟨k, v⟩ := kv
    by_cases hk : k = rr
    · subst hk
      simp only [addToBundle, if_pos rfl]
      have hbeq : (k == r) = false := by simp [h]
      simp [bundleGet, List.find?, hbeq]
    · simp only [addToBundle, if_neg hk]
      by_cases hkr : k = r
      · subst hkr
        simp [bundleGet, List.find?]
      · have hbeq : (k == r) = false := by simp [hkr]
        simp only [bundleGet, List.find?, hbeq]
        exact ih

lemma foldl_addToBundle_filter (entry : KeyEntry) (l : List String) (m : Bundles) :
    l.foldl (fun m seg => let r := pyStrip seg; if r = "" then m else addToBundle m r entry) m =
      ((l.map pyStrip).filter (fun r => decide (r ≠ ""))).foldl
        (fun m r => addToBundle m r entry) m := by
  induction l generalizing m with
  | nil => rfl
  | cons x xs ih =>
    simp only [List.foldl_cons, List.map_cons, List.filter_cons]
    by_cases hx : pyStrip x = ""
    · simp only [hx, if_pos rfl]
      have hd : decide (("" : String) ≠ "") = false := by decide
      simp only [hd]
      exact ih m
    · simp only [if_neg hx]
      have : decide (pyStrip x ≠ "") = true := by simp [hx]
      simp only [this, if_true]
      simp only [List.foldl_cons]
      exact ih (addToBundle m (pyStrip x) entry)

lemma addRecipients_eq_filter (m : Bundles) (nr : Row) (entry : KeyEntry) :
    addRecipients m nr entry =
      (((pySplit ',' (pyStrip (emailColumnCons nr))).map pyStrip).filter
        (fun r => decide (r ≠ ""))).foldl (fun m r => addToBundle m r entry) m := by
  unfold addRecipients
  by_cases he : pyStrip (emailColumnCons nr) = ""
  · simp only [he, if_pos rfl]
    have : pySplit ',' "" = [""] := rfl
    rw [this]
    rfl
  · simp only [if_neg he]
    exact foldl_addToBundle_filter entry _ m

lemma processRowCons_skip_noExpiry (T : Int) (st : Nat × Bundles) (row : Row)
    (h : expiryStrCons (normalizeRow row) = none) : processRowCons T st row = st := by
  unfold processRowCons
  simp [h]

lemma processRowCons_skip_NA (T : Int) (st : Nat × Bundles) (row : Row) (s : String)
    (h1 : expiryStrCons (normalizeRow row) = some s) (h2 : isNA s = true) :
    processRowCons T st row = st := by
  unfold processRowCons
  simp [h1, h2]

lemma processRowCons_skip_badParse (T : Int) (st : Nat × Bundles) (row : Row) (s : String)
    (h1 : expiryStrCons (normalizeRow row) = some s) (h2 : isNA s = false)
    (h3 : parseDDMMYYYY s = none) : processRowCons T st row = st := by
  unfold processRowCons
  simp [h1, h2, h3]

lemma processRowCons_skip_unparseable (T : Int) (st : Nat × Bundles) (row : Row) (s : String)
    (h1 : expiryStrCons (normalizeRow row) = some s) (h3 : parseDDMMYYYY s = none) :
    processRowCons T st row = st := by
  rcases h2 : isNA s with _ | _
  · exact processRowCons_skip_badParse T st row s h1 h2 h3
  · exact processRowCons_skip_NA T st row s h1 h2

lemma processRowCons_notifiable (T : Int) (st : Nat × Bundles) (row : Row) (s : String)
    (d : KeyDate) (h1 : expiryStrCons (normalizeRow row) = some s) (h2 : isNA s = false)
    (h3 : parseDDMMYYYY s = some d) (h4 : windowPolicy (daysUntilCons d T) = true) :
    processRowCons T st row =
      (st.1 + 1, addRecipients st.2 (normalizeRow row)
        (mkEntry (normalizeRow row) s (daysUntilCons d T))) := by
  unfold processRowCons
  simp [h1, h2, h3, h4]

lemma processRowCons_notInWindow (T : Int) (st : Nat × Bundles) (row : Row) (s : String)
    (d : KeyDate) (h1 : expiryStrCons (normalizeRow row) = some s) (h2 : isNA s = false)
    (h3 : parseDDMMYYYY s = some d) (h4 : windowPolicy (daysUntilCons d T) = false) :
    processRowCons T st row = (st.1 + 1, st.2) := by
  unfold processRowCons
  simp [h1, h2, h3, h4]

lemma foldl_processRowCons_bundleGet (T : Int) (rows : List Row) (r : String)
    (st : Nat × Bundles)
    (h : ∀ row ∈ rows, ∀ st2 : Nat × Bundles,
      bundleGet (processRowCons T st2 row).2 r = bundleGet st2.2 r) :
    bundleGet ((rows.foldl (processRowCons T) st).2) r = bundleGet st.2 r := by
  induction rows generalizing st with
  | nil => rfl
  | cons row rest ih =>
    simp only [List.foldl_cons]
    rw [ih _ (fun rw2 hrw2 => h rw2 (List.mem_cons_of_mem _ hrw2))]
    exact h row (List.mem_cons_self _ _) st

lemma addRecipients_single (m : Bundles) (nr : Row) (entry : KeyEntry) (r : String)
    (h1 : pyStrip (emailColumnCons nr) = r) (h2 : r ≠ "")
    (h3 : pySplit ',' r = [r]) (h4 : pyStrip r = r) :
    addRecipients m nr entry = addToBundle m r entry := by
  unfold addRecipients
  rw [h1, if_neg h2, h3]
  simp [h4, h2]

lemma empty_append_str (s : String) : "" ++ s = s := by
  cases s
  rfl

lemma enumFrom_two (e1 e2 : KeyEntry) : enumFrom 1 [e1, e2] = [(1, e1), (2, e2)] := rfl

lemma tableRowsHtml_two (e1 e2 : KeyEntry) :
    tableRowsHtml [e1, e2] = tableRowHtml 1 e1 ++ tableRowHtml 2 e2 := by
  unfold tableRowsHtml
  rw [enumFrom_two]
  simp only [List.foldl_cons, List.foldl_nil]
  rw [empty_append_str]

lemma textLinesBody_two (e1 e2 : KeyEntry) :
    textLinesBody [e1, e2] =
      "GPG KEY EXPIRATION ALERT - ACTION REQUIRED\n\n" ++ textLine 1 e1 ++ textLine 2 e2 := by
  unfold textLinesBody
  rw [enumFrom_two]
  simp only [List.foldl_cons, List.foldl_nil]

lemma sendAttemptsSingle_allFail (f : Nat → Bool) (h : ∀ n, f n = false) :
    sendAttemptsSingle f 0 3 = (3, false) := by
  simp [sendAttemptsSingle, h]

lemma sendAttemptsCons_allFail (f : Nat → Bool) (h : ∀ n, f n = false) :
    sendAttemptsCons f 0 3 = (3, 0) := by
  simp [sendAttemptsCons, h]

lemma sendAttemptsSingle_firstOk (f : Nat → Bool) (h : f 0 = true) :
    sendAttemptsSingle f 0 3 = (1, true) := by
  simp [sendAttemptsSingle, h]

/-! ### Concrete inputs used by the claim theorems and witnesses -/

/-- Ordinal of 12 October 2026, a sample run date. -/
def todayOrd2026 : Int := KeyDate.toOrdinal ⟨2026, 10, 12⟩

/-- Noon: a run at 12:00:00.000000. -/
def noonUsec : Int := 43200000000

def rowC1 : Row := ⟨[("GPG_Private_Key", "K1"), ("GPG_Key_Expiry", "26-10-2026"),
  ("PIC_Email", "r@x.com")]⟩

def rowNA : Row := ⟨[("GPG_Key_Expiry", "N/A")]⟩

def rowNAcase : Row := ⟨[("gpg_key_expiry", " n/a ")]⟩

def rowBadDate : Row := ⟨[("expiry_date", "2024-01-01")]⟩

def rowC3 : Row := ⟨[("PIC_Email", "a@x.com, b@x.com ,")]⟩

def rowC8 : Row := ⟨[("GPG_key_expiry", "01-01-2030")]⟩

def rowC8w : Row := ⟨[("GPG_Key_Expiry", "05-05-2030")]⟩

def wrow1 : Row := ⟨[("Feed_Name", "F1"), ("GPG_Private_Key", "K1"),
  ("GPG_Key_Expiry", "20-10-2026"), ("PIC_Email", "r@x.com")]⟩

def wrow2 : Row := ⟨[("Feed_Name", "F2"), ("GPG_Private_Key", "K2"),
  ("GPG_Key_Expiry", "26-10-2026"), ("PIC_Email", "r@x.com")]⟩

/-! ### Claims -/

/-- Claim C1: the claim states that a key whose expiry date is exactly 14
calendar days after today is notifiable under the exact-or-soon policy,
with time of day ignored.  The single-key code computes the day count
from `datetime.now()`, which keeps the time of day: at noon the count
for such a key is 13, not 14, the policy rejects it and no notification
is sent; only a run at exactly midnight yields 14.  The date-only
difference (as the claim and the consolidated variant compute it) is
14, witnessing that the bug is the retained time of day. -/
theorem c1_fourteen_days_missed_when_not_midnight :
    daysUntilCons ⟨2026, 10, 26⟩ todayOrd2026 = 14 ∧
    daysUntilSingle ⟨2026, 10, 26⟩ todayOrd2026 noonUsec = 13 ∧
    exactOrSoonPolicy (daysUntilSingle ⟨2026, 10, 26⟩ todayOrd2026 noonUsec) = false ∧
    processRowSingle todayOrd2026 noonUsec (fun _ _ => true) ⟨0, 0, 0⟩ rowC1 = ⟨1, 0, 0⟩ ∧
    daysUntilSingle ⟨2026, 10, 26⟩ todayOrd2026 0 = 14 := by
  decide

/-- Claim C2 counterexample: the claim says an N/A expiry never
increments the error counter, but in the single-key variant the literal
"N/A" is not specially handled: date parsing raises, the inner handler
catches, and the error counter becomes 1. -/
theorem c2_na_increments_errors_single :
    processRowSingle todayOrd2026 noonUsec (fun _ _ => true) ⟨0, 0, 0⟩ rowNA = ⟨1, 0, 1⟩ ∧
    (processRowSingle todayOrd2026 noonUsec (fun _ _ => true) ⟨0, 0, 0⟩ rowNA).errors ≠ 0 := by
  decide

/-- Claim C2 (amended): in the consolidated variant a row whose expiry
field is "N/A" in any letter case, with surrounding whitespace, yields
no record and leaves the whole state (bundles and processed count)
unchanged; in the single-key variant such a row is not skipped: its
date parse fails, so the error counter increments by one. -/
theorem c2_na_row_skipped_consolidated_errs_single :
    (∀ (T : Int) (st : Nat × Bundles) (row : Row) (s : String),
      expiryStrCons (normalizeRow row) = some s → isNA s = true →
      processRowCons T st row = st) ∧
    (∀ (T u : Int) (tr : List String → Nat → Bool) (st : Stats) (row : Row) (s : String),
      expiryStrSingle row = some s → isNA s = true →
      processRowSingle T u tr st row =
        { st with processed := st.processed + 1, errors := st.errors + 1 }) := by
  constructor
  · intro T st row s h1 h2
    exact processRowCons_skip_NA T st row s h1 h2
  · intro T u tr st row s h1 h2
    exact processRowSingle_badParse T u tr st row s h1 (parse_none_of_isNA s h2)

/-- Claim C2 witness: a lower-case, whitespace-padded n/a row is
skipped without a state change by the consolidated variant, and the
literal N/A row increments the single-key error counter. -/
theorem c2_na_witness :
    processRowCons 0 (0, []) rowNAcase = (0, []) ∧
    processRowSingle 0 0 (fun _ _ => true) ⟨0, 0, 0⟩ rowNA = ⟨1, 0, 1⟩ := by
  have h := c2_na_row_skipped_consolidated_errs_single
  refine ⟨h.1 0 (0, []) rowNAcase " n/a " (by decide) (by decide), ?_⟩
  have h2 := h.2 0 0 (fun _ _ => true) ⟨0, 0, 0⟩ rowNA "N/A" (by decide) (by decide)
  simpa using h2

/-- Claim C3 counterexample: the claim says empty segments are
discarded and the example field resolves to exactly two addresses, but
the single-key variant keeps the empty segment produced by the trailing
comma: the resolved list is three elements long and contains "". -/
theorem c3_trailing_empty_kept_single :
    recipientsSingle "a@x.com, b@x.com ," = ["a@x.com", "b@x.com", ""] ∧
    "" ∈ recipientsSingle "a@x.com, b@x.com ," := by
  decide

/-- Claim C3 (amended): the consolidated variant resolves recipients as
the claim states — split on commas, strip each segment, drop empties —
and on the example field adds exactly the two addresses; the single-key
variant splits and strips but keeps empty segments. -/
theorem c3_recipients_resolution :
    (∀ (m : Bundles) (nr : Row) (entry : KeyEntry),
      addRecipients m nr entry =
        (((pySplit ',' (pyStrip (emailColumnCons nr))).map pyStrip).filter
          (fun r => decide (r ≠ ""))).foldl (fun m r => addToBundle m r entry) m) ∧
    (∀ entry : KeyEntry, addRecipients [] rowC3 entry =
      [("a@x.com", [entry]), ("b@x.com", [entry])]) ∧
    recipientsSingle "a@x.com, b@x.com ," = ["a@x.com", "b@x.com", ""] := by
  refine ⟨addRecipients_eq_filter, ?_, by decide⟩
  intro entry
  rfl

/-- Claim C4: in a manifest whose only rows contributing to recipient
`r` are two notifiable rows (each resolving to the sole recipient `r`),
the bundle rendered for `r` holds exactly the two entries in manifest
row order, and both the HTML table body and the plain-text list render
exactly two rows, numbered 1 and 2, in that order. -/
theorem c4_two_rows_one_recipient (T : Int) (rows1 rows2 rows3 : List Row)
    (row1 row2 : Row) (r s1 s2 : String) (d1 d2 : KeyDate)
    (hother : ∀ row ∈ rows1 ++ rows2 ++ rows3, ∀ st : Nat × Bundles,
      bundleGet (processRowCons T st row).2 r = bundleGet st.2 r)
    (h11 : expiryStrCons (normalizeRow row1) = some s1) (h12 : isNA s1 = false)
    (h13 : parseDDMMYYYY s1 = some d1)
    (h14 : windowPolicy (daysUntilCons d1 T) = true)
    (h15 : pyStrip (emailColumnCons (normalizeRow row1)) = r)
    (h21 : expiryStrCons (normalizeRow row2) = some s2) (h22 : isNA s2 = false)
    (h23 : parseDDMMYYYY s2 = some d2)
    (h24 : windowPolicy (daysUntilCons d2 T) = true)
    (h25 : pyStrip (emailColumnCons (normalizeRow row2)) = r)
    (hr : r ≠ "") (hrsplit : pySplit ',' r = [r]) (hrstrip : pyStrip r = r) :
    bundleGet (((rows1 ++ row1 :: rows2 ++ row2 :: rows3).foldl
        (processRowCons T) (0, [])).2) r =
      some [mkEntry (normalizeRow row1) s1 (daysUntilCons d1 T),
            mkEntry (normalizeRow row2) s2 (daysUntilCons d2 T)] ∧
    enumFrom 1 [mkEntry (normalizeRow row1) s1 (daysUntilCons d1 T),
        mkEntry (normalizeRow row2) s2 (daysUntilCons d2 T)] =
      [(1, mkEntry (normalizeRow row1) s1 (daysUntilCons d1 T)),
       (2, mkEntry (normalizeRow row2) s2 (daysUntilCons d2 T))] ∧
    tableRowsHtml [mkEntry (normalizeRow row1) s1 (daysUntilCons d1 T),
        mkEntry (normalizeRow row2) s2 (daysUntilCons d2 T)] =
      tableRowHtml 1 (mkEntry (normalizeRow row1) s1 (daysUntilCons d1 T)) ++
      tableRowHtml 2 (mkEntry (normalizeRow row2) s2 (daysUntilCons d2 T)) ∧
    textLinesBody [mkEntry (normalizeRow row1) s1 (daysUntilCons d1 T),
        mkEntry (normalizeRow row2) s2 (daysUntilCons d2 T)] =
      "GPG KEY EXPIRATION ALERT - ACTION REQUIRED\n\n" ++
      textLine 1 (mkEntry (normalizeRow row1) s1 (daysUntilCons d1 T)) ++
      textLine 2 (mkEntry (normalizeRow row2) s2 (daysUntilCons d2 T)) := by
  have hmem1 : ∀ row ∈ rows1, ∀ st : Nat × Bundles,
      bundleGet (processRowCons T st row).2 r = bundleGet st.2 r :=
    fun row h => hother row (by simp [h])
  have hmem2 : ∀ row ∈ rows2, ∀ st : Nat × Bundles,
      bundleGet (processRowCons T st row).2 r = bundleGet st.2 r :=
    fun row h => hother row (by simp [h])
  have hmem3 : ∀ row ∈ rows3, ∀ st : Nat × Bundles,
      bundleGet (processRowCons T st row).2 r = bundleGet st.2 r :=
    fun row h => hother row (by simp [h])
  refine ⟨?_, rfl, tableRowsHtml_two _ _, textLinesBody_two _ _⟩
  rw [List.foldl_append, List.foldl_cons, List.foldl_append, List.foldl_cons]
  rw [foldl_processRowCons_bundleGet T rows3 r _ hmem3]
  rw [processRowCons_notifiable T _ row2 s2 d2 h21 h22 h23 h24]
  simp only []
  rw [addRecipients_single _ _ _ r h25 hr hrsplit hrstrip]
  rw [bundleGet_addToBundle_self]
  rw [foldl_processRowCons_bundleGet T rows2 r _ hmem2]
  rw [processRowCons_notifiable T _ row1 s1 d1 h11 h12 h13 h14]
  simp only []
  rw [addRecipients_single _ _ _ r h15 hr hrsplit hrstrip]
  rw [bundleGet_addToBundle_self]
  rw [foldl_processRowCons_bundleGet T rows1 r _ hmem1]
  simp [bundleGet]

/-- Claim C4 witness: a concrete two-row manifest sharing the one
recipient, evaluated on 12 October 2026. -/
theorem c4_two_rows_witness :
    bundleGet ((([wrow1, wrow2]).foldl (processRowCons todayOrd2026) (0, [])).2) "r@x.com" =
      some [mkEntry (normalizeRow wrow1) "20-10-2026" (daysUntilCons ⟨2026, 10, 20⟩ todayOrd2026),
            mkEntry (normalizeRow wrow2) "26-10-2026" (daysUntilCons ⟨2026, 10, 26⟩ todayOrd2026)] ∧
    tableRowsHtml [mkEntry (normalizeRow wrow1) "20-10-2026" (daysUntilCons ⟨2026, 10, 20⟩ todayOrd2026),
        mkEntry (normalizeRow wrow2) "26-10-2026" (daysUntilCons ⟨2026, 10, 26⟩ todayOrd2026)] =
      tableRowHtml 1 (mkEntry (normalizeRow wrow1) "20-10-2026" (daysUntilCons ⟨2026, 10, 20⟩ todayOrd2026)) ++
      tableRowHtml 2 (mkEntry (normalizeRow wrow2) "26-10-2026" (daysUntilCons ⟨2026, 10, 26⟩ todayOrd2026)) := by
  have h := c4_two_rows_one_recipient todayOrd2026 [] [] [] wrow1 wrow2 "r@x.com"
    "20-10-2026" "26-10-2026" ⟨2026, 10, 20⟩ ⟨2026, 10, 26⟩
    (by intro row hmem; exact absurd hmem (by simp))
    (by decide) (by decide) (by decide) (by decide) (by decide)
    (by decide) (by decide) (by decide) (by decide) (by decide)
    (by decide) (by decide) (by decide)
  exact ⟨h.1, h.2.2.1⟩

/-- Claim C5: with a transport that fails on every attempt, both retry
loops make exactly 3 send attempts and report failure.  The single-key
caller sees the re-raised exception: that notifiable row ends with one
more error, no notification.  The consolidated caller swallows the
failure: that recipient contributes 0 notifications and the loop
continues with the remaining recipients unchanged. -/
theorem c5_retry_exhaustion
    (tS : List String → Nat → Bool) (hS : ∀ rs n, tS rs n = false)
    (tC : String → Nat → Bool) (r : String) (hC : ∀ n, tC r n = false)
    (T u : Int) (st : Stats) (row : Row) (s : String) (d : KeyDate)
    (h1 : expiryStrSingle row = some s) (h2 : parseDDMMYYYY s = some d)
    (h3 : exactOrSoonPolicy (daysUntilSingle d T u) = true) :
    sendFormattedEmail tS (recipientsSingle (emailColumnSingle row)) = (3, false) ∧
    processRowSingle T u tS st row =
      { st with processed := st.processed + 1, errors := st.errors + 1 } ∧
    sendConsolidatedEmail tC r = (3, 0) ∧
    (∀ (ks : List KeyEntry) (rest : Bundles),
      sendAllCons tC ((r, ks) :: rest) = sendAllCons tC rest) := by
  have hsend : sendFormattedEmail tS (recipientsSingle (emailColumnSingle row)) = (3, false) :=
    sendAttemptsSingle_allFail _ (fun n => hS _ n)
  have hconsSend : sendConsolidatedEmail tC r = (3, 0) :=
    sendAttemptsCons_allFail _ hC
  refine ⟨hsend, ?_, hconsSend, ?_⟩
  · exact processRowSingle_sendFail T u tS st row s d h1 h2 h3 (by rw [hsend])
  · intro ks rest
    unfold sendAllCons
    simp [hconsSend]

def rowC5 : Row := ⟨[("GPG_Key_Expiry", "26-10-2026"), ("PIC_Email", "r@x.com")]⟩

/-- Claim C5 witness: a notifiable row on 12 October 2026 at midnight
(the only time of day at which the 14-day check fires), with an
always-failing transport. -/
theorem c5_retry_witness :
    sendFormattedEmail (fun _ _ => false) (recipientsSingle (emailColumnSingle rowC5)) = (3, false) ∧
    processRowSingle todayOrd2026 0 (fun _ _ => false) ⟨0, 0, 0⟩ rowC5 = ⟨1, 0, 1⟩ ∧
    sendConsolidatedEmail (fun _ _ => false) "r@x.com" = (3, 0) ∧
    sendAllCons (fun _ _ => false) [("r@x.com", [])] = sendAllCons (fun _ _ => false) [] := by
  have h := c5_retry_exhaustion (fun _ _ => false) (fun _ _ => rfl)
    (fun _ _ => false) "r@x.com" (fun _ => rfl) todayOrd2026 0 ⟨0, 0, 0⟩ rowC5
    "26-10-2026" ⟨2026, 10, 26⟩ (by decide) (by decide) (by decide)
  refine ⟨h.1, ?_, h.2.2.1, h.2.2.2 [] []⟩
  simpa using h.2.1

/-- Claim C6: a row whose expiry field is present but does not parse in
DD-MM-YYYY format does not abort the run: in the single-key variant the
inner handler increments the error counter (and nothing else changes
except the processed count), the loop goes on to fold the remaining
rows from that state, and in the consolidated variant the row leaves
the aggregation state untouched. -/
theorem c6_unparseable_date_contained (T u : Int) (tr : List String → Nat → Bool)
    (st : Stats) (row : Row) (s : String)
    (h1 : expiryStrSingle row = some s) (h2 : parseDDMMYYYY s = none) :
    processRowSingle T u tr st row =
      { st with processed := st.processed + 1, errors := st.errors + 1 } ∧
    (∀ rest : List Row, (row :: rest).foldl (processRowSingle T u tr) st =
      rest.foldl (processRowSingle T u tr)
        { st with processed := st.processed + 1, errors := st.errors + 1 }) ∧
    (∀ (T2 : Int) (st2 : Nat × Bundles) (row2 : Row),
      expiryStrCons (normalizeRow row2) = some s → processRowCons T2 st2 row2 = st2) := by
  refine ⟨processRowSingle_badParse T u tr st row s h1 h2, ?_, ?_⟩
  · intro rest
    simp only [List.foldl_cons, processRowSingle_badParse T u tr st row s h1 h2]
  · intro T2 st2 row2 h
    exact processRowCons_skip_unparseable T2 st2 row2 s h h2

/-- Claim C6 witness: the ISO-ordered date of the claim fails to parse;
the single-key variant counts one error, the consolidated variant
leaves its state unchanged. -/
theorem c6_unparseable_witness :
    processRowSingle 0 0 (fun _ _ => true) ⟨0, 0, 0⟩ rowBadDate = ⟨1, 0, 1⟩ ∧
    processRowCons 0 (0, []) rowBadDate = (0, []) := by
  have h := c6_unparseable_date_contained 0 0 (fun _ _ => true) ⟨0, 0, 0⟩ rowBadDate
    "2024-01-01" (by decide) (by decide)
  refine ⟨by simpa using h.1, h.2.2 0 (0, []) rowBadDate (by decide)⟩

/-- Claim C7: a key expiring exactly 5 calendar days after today is not
notifiable under the exact-or-soon policy (whatever the time of day the
single-key variant runs at, the computed count is 4 or 5, outside both
bands) and is notifiable under the 31-day window policy. -/
theorem c7_five_days (d : KeyDate) (T u : Int) (h : d.toOrdinal = T + 5)
    (h0 : 0 ≤ u) (h1 : u < usecPerDay) :
    exactOrSoonPolicy (daysUntilSingle d T u) = false ∧
    windowPolicy (daysUntilCons d T) = true := by
  constructor
  · have hb := fdiv_mul_sub_bounds 5 u h0 h1
    unfold daysUntilSingle
    rw [h]
    have h5 : T + 5 - T = (5 : Int) := by ring
    rw [h5]
    unfold exactOrSoonPolicy
    simp only [decide_eq_false_iff_not]
    intro hcontra
    rcases hcontra with he | ⟨hge, hle⟩ <;> omega
  · unfold windowPolicy daysUntilCons
    rw [h]
    simp only [decide_eq_true_eq]
    constructor <;> omega

/-- Claim C7 witness: 17 October 2026 seen from 12 October 2026, one
microsecond past midnight. -/
theorem c7_five_days_witness :
    exactOrSoonPolicy (daysUntilSingle ⟨2026, 10, 17⟩ todayOrd2026 1) = false ∧
    windowPolicy (daysUntilCons ⟨2026, 10, 17⟩ todayOrd2026) = true :=
  c7_five_days ⟨2026, 10, 17⟩ todayOrd2026 1 (by decide) (by decide) (by decide)

lemma firstTruthy_cons_truthy (v : String) (rest : List (Option String)) (h : v ≠ "") :
    firstTruthy (some v :: rest) = some v := by
  simp [firstTruthy, h]

lemma firstTruthy_cons_falsy (o : Option String) (rest : List (Option String))
    (h : o = none ∨ o = some "") : firstTruthy (o :: rest) = firstTruthy rest := by
  rcases h with rfl | rfl
  · rfl
  · simp [firstTruthy]

/-- Claim C8 counterexample: the claim names the alias chain
GPG_Key_Expiry, GPG_key_expiry, expiry_date for every row, but the
consolidated variant tries gpg_key_expiry (all lower case) instead of
GPG_key_expiry: a row whose only expiry header is GPG_key_expiry
resolves in the single-key variant and not at all in the consolidated
one, which skips the row entirely. -/
theorem c8_alias_divergence :
    expiryStrSingle rowC8 = some "01-01-2030" ∧
    expiryStrCons (normalizeRow rowC8) = none ∧
    processRowCons todayOrd2026 (0, []) rowC8 = (0, []) := by
  refine ⟨by decide, by decide, ?_⟩
  exact processRowCons_skip_noExpiry _ _ _ (by decide)

/-- Claim C8 (amended): expiry resolution takes the first present,
non-empty value along the alias chain — GPG_Key_Expiry, GPG_key_expiry,
expiry_date in the single-key variant; GPG_Key_Expiry, gpg_key_expiry,
expiry_date (over whitespace-trimmed header names) in the consolidated
variant — and when no alias yields a value the row is skipped without
touching the error counter or any other state. -/
theorem c8_alias_resolution :
    (∀ (nr : Row) (v : String), rowGet nr "GPG_Key_Expiry" = some v → v ≠ "" →
      expiryStrSingle nr = some v ∧ expiryStrCons nr = some v) ∧
    (∀ (nr : Row) (v : String),
      (rowGet nr "GPG_Key_Expiry" = none ∨ rowGet nr "GPG_Key_Expiry" = some "") →
      rowGet nr "GPG_key_expiry" = some v → v ≠ "" →
      expiryStrSingle nr = some v) ∧
    (∀ (nr : Row) (v : String),
      (rowGet nr "GPG_Key_Expiry" = none ∨ rowGet nr "GPG_Key_Expiry" = some "") →
      rowGet nr "gpg_key_expiry" = some v → v ≠ "" →
      expiryStrCons nr = some v) ∧
    (∀ (nr : Row) (v : String),
      (rowGet nr "GPG_Key_Expiry" = none ∨ rowGet nr "GPG_Key_Expiry" = some "") →
      (rowGet nr "GPG_key_expiry" = none ∨ rowGet nr "GPG_key_expiry" = some "") →
      rowGet nr "expiry_date" = some v → v ≠ "" →
      expiryStrSingle nr = some v) ∧
    (∀ (T u : Int) (tr : List String → Nat → Bool) (st : Stats) (row : Row),
      expiryStrSingle row = none →
      processRowSingle T u tr st row = { st with processed := st.processed + 1 }) ∧
    (∀ (T : Int) (st : Nat × Bundles) (row : Row),
      expiryStrCons (normalizeRow row) = none → processRowCons T st row = st) := by
  refine ⟨?_, ?_, ?_, ?_, processRowSingle_noExpiry, processRowCons_skip_noExpiry⟩
  · intro nr v h hv
    constructor
    · unfold expiryStrSingle
      rw [h, firstTruthy_cons_truthy v _ hv]
    · unfold expiryStrCons
      rw [h, firstTruthy_cons_truthy v _ hv]
  · intro nr v h1 h2 hv
    unfold expiryStrSingle
    rw [firstTruthy_cons_falsy _ _ h1, h2, firstTruthy_cons_truthy v _ hv]
  · intro nr v h1 h2 hv
    unfold expiryStrCons
    rw [firstTruthy_cons_falsy _ _ h1, h2, firstTruthy_cons_truthy v _ hv]
  · intro nr v h1 h2 h3 hv
    unfold expiryStrSingle
    rw [firstTruthy_cons_falsy _ _ h1, firstTruthy_cons_falsy _ _ h2, h3,
      firstTruthy_cons_truthy v _ hv]

/-- Claim C8 witness: a row carrying only the shared first alias
resolves to the same value in both variants. -/
theorem c8_alias_witness :
    expiryStrSingle rowC8w = some "05-05-2030" ∧ expiryStrCons rowC8w = some "05-05-2030" :=
  c8_alias_resolution.1 rowC8w "05-05-2030" (by decide) (by decide)

/-- Claim C9: the job boundary is total — the outer handlers catch
every pipeline failure.  A failing fetch (or a manifest whose
processing raises) produces the 500 response with the diagnostic body
in the single-key variant and the Fatal error diagnostic in the
consolidated variant; every run ends in one of the two documented
outcomes, never an escaped exception. -/
theorem c9_boundary_total :
    (∀ (e : String) (T u : Int) (tr : List String → Nat → Bool),
      lambdaHandlerSingle (Except.error e) T u tr = ⟨500, jsonDumps ("Error: " ++ e)⟩) ∧
    (∀ (fetch : Except String (List Row)) (T u : Int) (tr : List String → Nat → Bool),
      (lambdaHandlerSingle fetch T u tr).statusCode = 200 ∨
      (lambdaHandlerSingle fetch T u tr).statusCode = 500) ∧
    (∀ (e : String) (T : Int) (tc : String → Nat → Bool),
      lambdaHandlerCons (Except.error e) T tc = ConsOutcome.fatal ("Fatal error: " ++ e)) ∧
    (∀ (fetch : Except String (List Row)) (T : Int) (tc : String → Nat → Bool),
      (∃ p n m, lambdaHandlerCons fetch T tc = ConsOutcome.summary p n m) ∨
      (∃ msg, lambdaHandlerCons fetch T tc = ConsOutcome.fatal msg)) := by
  refine ⟨fun e T u tr => rfl, ?_, fun e T tc => rfl, ?_⟩
  · intro fetch T u tr
    cases fetch with
    | error e => exact Or.inr rfl
    | ok rows => exact Or.inl rfl
  · intro fetch T tc
    cases fetch with
    | error e => exact Or.inr ⟨_, rfl⟩
    | ok rows => exact Or.inl ⟨_, _, _, rfl⟩

/-- Claim C10: single-key run statistics.  Every row increments
processed by exactly one; each row moves at most one of notified or
errors, by at most one; therefore notified + errors is bounded by
processed from any state satisfying the bound — in particular at every
iteration of the loop and at the end of a run started from zeroed
counters. -/
theorem c10_stats_invariant :
    (∀ (T u : Int) (tr : List String → Nat → Bool) (st : Stats) (row : Row),
      (processRowSingle T u tr st row).processed = st.processed + 1) ∧
    (∀ (T u : Int) (tr : List String → Nat → Bool) (st : Stats) (row : Row),
      ((processRowSingle T u tr st row).notified = st.notified + 1 ∧
        (processRowSingle T u tr st row).errors = st.errors) ∨
      ((processRowSingle T u tr st row).errors = st.errors + 1 ∧
        (processRowSingle T u tr st row).notified = st.notified) ∨
      ((processRowSingle T u tr st row).notified = st.notified ∧
        (processRowSingle T u tr st row).errors = st.errors)) ∧
    (∀ (T u : Int) (tr : List String → Nat → Bool) (rows : List Row) (st : Stats),
      st.notified + st.errors ≤ st.processed →
      (rows.foldl (processRowSingle T u tr) st).notified +
        (rows.foldl (processRowSingle T u tr) st).errors ≤
        (rows.foldl (processRowSingle T u tr) st).processed) := by
  refine ⟨?_, ?_, ?_⟩
  · intro T u tr st row
    rcases processRowSingle_shape T u tr st row with h | h | h <;> rw [h]
  · intro T u tr st row
    rcases processRowSingle_shape T u tr st row with h | h | h <;> rw [h]
    · exact Or.inr (Or.inr ⟨rfl, rfl⟩)
    · exact Or.inr (Or.inl ⟨rfl, rfl⟩)
    · exact Or.inl ⟨rfl, rfl⟩
  · intro T u tr rows st h
    exact stats_foldl_invariant T u tr rows st h

/-- Claim C10 witness: the invariant at the end of a concrete two-row
run started from zeroed counters. -/
theorem c10_stats_witness :
    ([rowC1, rowNA].foldl (processRowSingle todayOrd2026 noonUsec (fun _ _ => true)) ⟨0, 0, 0⟩).notified +
      ([rowC1, rowNA].foldl (processRowSingle todayOrd2026 noonUsec (fun _ _ => true)) ⟨0, 0, 0⟩).errors ≤
      ([rowC1, rowNA].foldl (processRowSingle todayOrd2026 noonUsec (fun _ _ => true)) ⟨0, 0, 0⟩).processed :=
  c10_stats_invariant.2.2 todayOrd2026 noonUsec (fun _ _ => true) [rowC1, rowNA] ⟨0, 0, 0⟩
    (by decide)
